import Mathlib

/-!
Verification of the Smart OPD ticket allocation and queue-ordering engine
(src/app.py, src/utils/token_generator.py).

The MySQL tokens table is embedded as a list of Token records; the logs
table as a list of LogEntry records.  Each Flask endpoint in src/app.py is
translated into a pure Lean function over that state.  Timestamps (NOW(),
created_at, called_at, ...) are passed in explicitly as naturals; the
server clock date.today() is passed as a Date value.  Concurrent
interference during the create-token retry loop is modelled by letting the
visible table state differ from one attempt to the next (the env
parameter); a purely sequential run is env constant.
-/

namespace OPD

/-- Status enum of the tokens table: the strings Waiting, Called,
In-Progress, Completed, Cancelled, No-show used by src/app.py. -/
inductive Status where
  | Waiting
  | Called
  | InProgress
  | Completed
  | Cancelled
  | NoShow
deriving DecidableEq, Repr

/-- One row of the tokens table (src/app.py INSERT column list plus the
columns read by get_token / cancel_token / update_status). -/
structure Token where
  id : Nat
  token_no : String
  patient_name : String
  patient_phone : String
  dept_id : Nat
  appointment_date : String
  priority_requested : Bool
  priority_approved : Bool
  reason : String
  status : Status
  created_at : Nat
  called_at : Option Nat
  completed_at : Option Nat
  cancelled_at : Option Nat
  cancelled_by : Option String
deriving DecidableEq, Repr

/-- One row of the departments table as consumed by the core
(SELECT abbr / avg_service_time). -/
structure Dept where
  id : Nat
  abbr : String
  avg_service_time : Option Nat
deriving DecidableEq, Repr

/-- One row of the logs table: INSERT INTO logs (token_id, event, actor). -/
structure LogEntry where
  token_id : Option Nat
  event : String
  actor : String
deriving DecidableEq, Repr

/-- tokens table plus logs table: the mutable state shared by the
lifecycle endpoints. -/
structure DB where
  tokens : List Token
  logs : List LogEntry
deriving DecidableEq, Repr

/-- Server calendar date (date.today()). -/
structure Date where
  year : Nat
  month : Nat
  day : Nat
deriving DecidableEq, Repr

/-- Python str.zfill: left-pad with zeros to the given width. -/
def zfill (w : Nat) (s : String) : String :=
  String.mk (List.replicate (w - s.length) '0') ++ s

/-- src/utils/token_generator.py format_token, also inlined at
src/app.py:130 and 149: PREFIX-SSS-YYYYMMDD. -/
def format_token (pfx : String) (suffix : Nat) (date_str : String) : String :=
  pfx ++ "-" ++ zfill 3 (toString suffix) ++ "-" ++ date_str

/-- Two-digit zero padded component of a date string. -/
def pad2 (n : Nat) : String := zfill 2 (toString n)

/-- date.today().isoformat(): YYYY-MM-DD. -/
def Date.iso (d : Date) : String :=
  zfill 4 (toString d.year) ++ "-" ++ pad2 d.month ++ "-" ++ pad2 d.day

/-- date.today().strftime of YYYYMMDD as used in the token number. -/
def Date.ymd (d : Date) : String :=
  zfill 4 (toString d.year) ++ pad2 d.month ++ pad2 d.day

/-- SELECT ... FROM departments WHERE id=... -/
def lookupDept (deps : List Dept) (i : Nat) : Option Dept :=
  deps.find? (fun d => d.id == i)

/-- Request body of POST /api/token. -/
structure CreateReq where
  patient_name : String
  patient_phone : String
  dept_id : Nat
  appointment_date : Option String
  priority_requested : Bool
  reason : Option String
deriving DecidableEq, Repr

/-- SELECT COALESCE(MAX(id),0) FROM tokens WHERE dept_id=d AND
appointment_date=a (src/app.py:123-128).  Note: id is the global
store-assigned row id, restricted to the pair. -/
def maxIdPair (ts : List Token) (dept : Nat) (adate : String) : Nat :=
  (ts.filter (fun t => t.dept_id == dept && t.appointment_date == adate)).foldl
    (fun m t => max m t.id) 0

/-- Largest row id in the whole table; the auto-increment source.
Modelled from the spec: the store assigns each inserted row a fresh unique
integer id (schema not under src/); tokens are never deleted, so
max id + 1 is fresh. -/
def maxIdAll (ts : List Token) : Nat :=
  ts.foldl (fun m t => max m t.id) 0

/-- The row built by the INSERT at src/app.py:133-137.  priority_approved
and status are absent from the column list; their initial values false and
Waiting are modelled from the spec (initially false; Waiting initial state)
since the schema is not under src/. -/
def mkToken (ts : List Token) (req : CreateReq) (tno adate : String) (now : Nat) : Token :=
  { id := maxIdAll ts + 1
    token_no := tno
    patient_name := req.patient_name
    patient_phone := req.patient_phone
    dept_id := req.dept_id
    appointment_date := adate
    priority_requested := req.priority_requested
    priority_approved := false
    reason := req.reason.getD "Visit"
    status := Status.Waiting
    created_at := now
    called_at := none
    completed_at := none
    cancelled_at := none
    cancelled_by := none }

/-- Modelled from the spec: the schema (not under src/) declares token_no
unique, so the INSERT raises IntegrityError exactly when the token_no is
already present; otherwise the row is appended. -/
def tryInsert (ts : List Token) (t : Token) : Option (List Token) :=
  if ts.any (fun u => u.token_no == t.token_no) then none
  else some (ts ++ [t])

/-- One iteration of the while loop at src/app.py:113-171: compute the
candidate suffix MAX(id)+1 for the pair, try the insert; on duplicate key
retry once with the suffix incremented (the small optimization at
src/app.py:146-157); on a second duplicate give up this attempt. -/
def attemptInsert (ts : List Token) (req : CreateReq) (pfx adate : String)
    (today : Date) (now : Nat) : Option (List Token × Token) :=
  let suffix := maxIdPair ts req.dept_id adate + 1
  let t1 := mkToken ts req (format_token pfx suffix today.ymd) adate now
  match tryInsert ts t1 with
  | some ts1 => some (ts1, t1)
  | none =>
    let t2 := mkToken ts req (format_token pfx (suffix + 1) today.ymd) adate now
    match tryInsert ts t2 with
    | some ts2 => some (ts2, t2)
    | none => none

/-- The bounded retry loop (attempt < max_attempts, src/app.py:109-113):
fuel counts remaining attempts, k indexes the table snapshot the attempt
sees (concurrent writers may change it between attempts). -/
def createLoop (env : Nat → List Token) (req : CreateReq) (pfx adate : String)
    (today : Date) (now : Nat) : Nat → Nat → Option (List Token × Token)
  | 0, _ => none
  | fuel + 1, k =>
    match attemptInsert (env k) req pfx adate today now with
    | some r => some r
    | none => createLoop env req pfx adate today now fuel (k + 1)

/-- Ticket prefix of a department: the abbr, or the fixed fallback TKN
when the configured abbr is empty (src/app.py:106). -/
def pfxOf (d : Dept) : String := if d.abbr = "" then "TKN" else d.abbr

/-- Effective service date of a request: the requested appointment_date,
defaulting to today when omitted (src/app.py:96-98). -/
def adateOf (req : CreateReq) (today : Date) : String :=
  req.appointment_date.getD today.iso

/-- Outcome of POST /api/token. -/
inductive CreateResult where
  | invalidDept
  | allocFailed
  | created (tokens : List Token) (t : Token) (position_ahead : Nat)
      (estimated_wait_minutes : Option Nat)
deriving DecidableEq, Repr

/-- The correlated COUNT subquery of src/app.py:180-188 and 226-235:
tokens of the same dept and appointment_date with status Waiting whose
(priority_approved, created_at) ranks strictly ahead; priority_approved is
a 0/1 column compared with the integer order. -/
def aheadOf (t tt : Token) : Bool :=
  tt.dept_id == t.dept_id && tt.appointment_date == t.appointment_date
    && tt.status == Status.Waiting
    && ((tt.priority_approved && !t.priority_approved)
        || (tt.priority_approved == t.priority_approved && tt.created_at < t.created_at))

/-- position_ahead of a row: the value of the COUNT subquery. -/
def positionAhead (ts : List Token) (t : Token) : Nat :=
  (ts.filter (fun tt => aheadOf t tt)).length

/-- estimated_wait_minutes of a row: SELECT COALESCE(d.avg_service_time,5)
for the row's department times the same count; NULL when the department
row is absent (src/app.py:189-200). -/
def etaOf (deps : List Dept) (ts : List Token) (t : Token) : Option Nat :=
  (lookupDept deps t.dept_id).map (fun d => d.avg_service_time.getD 5 * positionAhead ts t)

/-- POST /api/token (src/app.py:84-214): validate the department, take the
abbr as prefix (fallback TKN when empty), default the appointment date to
today, run the bounded insert loop over at most 8 snapshots, and on
success recompute position and ETA from the committed table. -/
def createToken (deps : List Dept) (env : Nat → List Token) (req : CreateReq)
    (today : Date) (now : Nat) : CreateResult :=
  match lookupDept deps req.dept_id with
  | none => CreateResult.invalidDept
  | some d =>
    match createLoop env req (pfxOf d) (adateOf req today) today now 8 0 with
    | none => CreateResult.allocFailed
    | some (ts1, t) =>
      CreateResult.created ts1 t (positionAhead ts1 t) (etaOf deps ts1 t)

/-- token_no of a successful creation, if any. -/
def createdTokenNo : CreateResult → Option String
  | CreateResult.created _ t _ _ => some t.token_no
  | _ => none

/-- GET /api/token (src/app.py:217-252): find the row by token_no and
recompute position and ETA from the current table (404 when absent). -/
def getToken (deps : List Dept) (ts : List Token) (tno : String) :
    Option (Token × Nat × Option Nat) :=
  (ts.find? (fun t => t.token_no == tno)).map
    (fun t => (t, positionAhead ts t, etaOf deps ts t))

/-- exec_stmt (src/app.py:36-45) applied to an UPDATE statement: the
mutation commits and the function returns cur.lastrowid, which after an
UPDATE is 0 (lastrowid reflects only AUTO_INCREMENT values generated by an
INSERT). -/
def exec_update (ts : List Token) (f : List Token → List Token) : List Token × Nat :=
  (f ts, 0)

/-- id looked up for the logs insert:
(SELECT id FROM tokens WHERE token_no=...). -/
def idOf (ts : List Token) (tno : String) : Option Nat :=
  (ts.find? (fun t => t.token_no == tno)).map (fun t => t.id)

/-- Outcome of PUT /api/token/:token_no/cancel. -/
inductive CancelResult where
  | success
  | notCancellable
deriving DecidableEq, Repr

/-- PUT /api/token/:token_no/cancel (src/app.py:255-267): the guarded
UPDATE sets status Cancelled with cancelled_at and cancelled_by only on a
row whose status is Waiting or Called; the code then branches on the value
returned by exec_stmt and inserts the log row only on the nonzero branch. -/
def cancelToken (db : DB) (tno : String) (now : Nat) : DB × CancelResult :=
  let upd := exec_update db.tokens (fun ts => ts.map (fun t =>
    if t.token_no = tno ∧ (t.status = Status.Waiting ∨ t.status = Status.Called) then
      { t with status := Status.Cancelled, cancelled_at := some now,
               cancelled_by := some "patient" }
    else t))
  if upd.2 = 0 then
    ({ db with tokens := upd.1 }, CancelResult.notCancellable)
  else
    ({ tokens := upd.1,
       logs := db.logs ++ [{ token_id := idOf upd.1 tno, event := "cancelled",
                             actor := "patient" }] },
     CancelResult.success)

/-- PUT /api/token/:token_no/approve (src/app.py:309-316): set
priority_approved on the row only when priority_requested is set, then
insert a log row unconditionally. -/
def approvePriority (db : DB) (tno : String) (actor : String) : DB :=
  let ts1 := db.tokens.map (fun t =>
    if t.token_no = tno ∧ t.priority_requested then
      { t with priority_approved := true }
    else t)
  { tokens := ts1,
    logs := db.logs ++ [{ token_id := idOf ts1 tno, event := "approved_priority",
                          actor := actor }] }

/-- Outcome of PUT /api/token/:token_no/status. -/
inductive UpdateResult where
  | invalidStatus
  | success
deriving DecidableEq, Repr

/-- PUT /api/token/:token_no/status (src/app.py:319-332): reject a target
status outside the three allowed strings; Completed is guarded on the
current status being Called or In-Progress, while In-Progress and No-show
are set with no guard on the current status; a log row is inserted on
every non-rejected request. -/
def updateStatus (db : DB) (tno : String) (new_status : String) (actor : String)
    (now : Nat) : DB × UpdateResult :=
  if new_status ∉ ["In-Progress", "Completed", "No-show"] then
    (db, UpdateResult.invalidStatus)
  else
    let ts1 :=
      if new_status = "Completed" then
        db.tokens.map (fun t =>
          if t.token_no = tno ∧ (t.status = Status.Called ∨ t.status = Status.InProgress) then
            { t with status := Status.Completed, completed_at := some now }
          else t)
      else
        db.tokens.map (fun t =>
          if t.token_no = tno then
            { t with status := if new_status = "In-Progress" then Status.InProgress
                               else Status.NoShow }
          else t)
    ({ tokens := ts1,
       logs := db.logs ++ [{ token_id := idOf ts1 tno, event := new_status,
                             actor := actor }] },
     UpdateResult.success)

/-- Waiting row of the given dept and date: the candidate set of the
call-next selection. -/
def isWaitingPair (dept : Nat) (adate : String) (t : Token) : Bool :=
  t.dept_id == dept && t.appointment_date == adate && t.status == Status.Waiting

/-- Ranking of the call-next selection (priority_approved DESC,
created_at ASC): a ranks strictly before b. -/
def ranksBefore (a b : Token) : Bool :=
  (a.priority_approved && !b.priority_approved)
    || (a.priority_approved == b.priority_approved && a.created_at < b.created_at)

/-- Index and value of the top-ranked Waiting row of the pair, preferring
the earlier row on rank ties. -/
def topWaitingIdx (dept : Nat) (adate : String) : List Token → Option (Nat × Token)
  | [] => none
  | t :: ts =>
    let rest := (topWaitingIdx dept adate ts).map (fun p => (p.1 + 1, p.2))
    if isWaitingPair dept adate t then
      match rest with
      | none => some (0, t)
      | some (j, b) => if ranksBefore b t then some (j, b) else some (0, t)
    else rest

/-- Modelled from the spec: the stored procedure call_next_token invoked
at src/app.py:406 is database code not under src/; per the spec it
atomically selects the single Waiting ticket of the pair with the highest
rank (priority_approved desc, created_at asc), transitions it to Called
with called_at stamped now, and emits one audit entry with the actor; when
no Waiting ticket exists it changes nothing. -/
def call_next_token (db : DB) (dept : Nat) (adate : String) (actor : String)
    (now : Nat) : DB :=
  match topWaitingIdx dept adate db.tokens with
  | none => db
  | some (i, t) =>
    { tokens := db.tokens.set i { t with status := Status.Called, called_at := some now },
      logs := db.logs ++ [{ token_id := some t.id, event := "called", actor := actor }] }

/-- Called row of the given dept and date. -/
def isCalledPair (dept : Nat) (adate : String) (t : Token) : Bool :=
  t.dept_id == dept && t.appointment_date == adate && t.status == Status.Called

/-- Sort key of ORDER BY called_at DESC with NULLs last. -/
def caVal : Option Nat → Nat
  | none => 0
  | some x => x + 1

/-- The read-back at src/app.py:412-416: the Called row of the pair with
the greatest called_at (LIMIT 1; the earlier row on ties). -/
def mostRecentCalled (dept : Nat) (adate : String) : List Token → Option Token
  | [] => none
  | t :: ts =>
    let rest := mostRecentCalled dept adate ts
    if isCalledPair dept adate t then
      match rest with
      | none => some t
      | some b => if caVal t.called_at < caVal b.called_at then some b else some t
    else rest

/-- PUT /api/departments/:dept_id/call-next (src/app.py:396-426): default
the date to today, run the stored procedure, then answer with the most
recently Called token of the pair (null when none exists). -/
def call_next (db : DB) (dept : Nat) (adate : Option String) (actor : String)
    (today : Date) (now : Nat) : DB × Option String :=
  let ad := adate.getD today.iso
  let db1 := call_next_token db dept ad actor now
  (db1, (mostRecentCalled dept ad db1.tokens).map (fun t => t.token_no))

/-! ### Characterization lemmas for the create-token loop -/

lemma tryInsert_eq_some {ts ts1 : List Token} {t : Token}
    (h : tryInsert ts t = some ts1) :
    (∀ u ∈ ts, u.token_no ≠ t.token_no) ∧ ts1 = ts ++ [t] := by
  unfold tryInsert at h
  split at h
  · exact absurd h (by simp)
  · next hany =>
    refine ⟨fun u hu he => hany (List.any_eq_true.mpr ⟨u, hu, by simp [he]⟩), ?_⟩
    exact (Option.some.inj h).symm

lemma attemptInsert_spec {ts ts1 : List Token} {req : CreateReq} {pfx adate : String}
    {today : Date} {now : Nat} {t : Token}
    (h : attemptInsert ts req pfx adate today now = some (ts1, t)) :
    (∀ u ∈ ts, u.token_no ≠ t.token_no) ∧ ts1 = ts ++ [t]
      ∧ (t.token_no = format_token pfx (maxIdPair ts req.dept_id adate + 1) today.ymd
          ∨ t.token_no = format_token pfx (maxIdPair ts req.dept_id adate + 2) today.ymd)
      ∧ t.appointment_date = adate ∧ t.priority_approved = false
      ∧ t.priority_requested = req.priority_requested ∧ t.dept_id = req.dept_id
      ∧ t.created_at = now ∧ t.status = Status.Waiting := by
  unfold attemptInsert at h
  cases h1 : tryInsert ts
      (mkToken ts req (format_token pfx (maxIdPair ts req.dept_id adate + 1) today.ymd) adate now) with
  | some tsa =>
    simp only [h1, Option.some.injEq, Prod.mk.injEq] at h
    obtain ⟨hts, ht⟩ := h
    obtain ⟨hfresh, happ⟩ := tryInsert_eq_some h1
    subst ht
    refine ⟨hfresh, by rw [← hts, happ], Or.inl rfl, rfl, rfl, rfl, rfl, rfl, rfl⟩
  | none =>
    simp only [h1] at h
    cases h2 : tryInsert ts
        (mkToken ts req (format_token pfx (maxIdPair ts req.dept_id adate + 1 + 1) today.ymd) adate now) with
    | some tsb =>
      simp only [h2, Option.some.injEq, Prod.mk.injEq] at h
      obtain ⟨hts, ht⟩ := h
      obtain ⟨hfresh, happ⟩ := tryInsert_eq_some h2
      subst ht
      refine ⟨hfresh, by rw [← hts, happ], Or.inr rfl, rfl, rfl, rfl, rfl, rfl, rfl⟩
    | none => simp [h2] at h

lemma createLoop_spec {env : Nat → List Token} {req : CreateReq} {pfx adate : String}
    {today : Date} {now : Nat} :
    ∀ fuel k {ts1 : List Token} {t : Token},
      createLoop env req pfx adate today now fuel k = some (ts1, t) →
      ∃ j, k ≤ j ∧ j < k + fuel ∧
        attemptInsert (env j) req pfx adate today now = some (ts1, t) := by
  intro fuel
  induction fuel with
  | zero => intro k ts1 t h; simp [createLoop] at h
  | succ n ih =>
    intro k ts1 t h
    rw [createLoop] at h
    cases ha : attemptInsert (env k) req pfx adate today now with
    | some r =>
      rw [ha] at h
      exact ⟨k, le_refl k, by omega, by rw [ha]; exact h⟩
    | none =>
      rw [ha] at h
      obtain ⟨j, h1, h2, h3⟩ := ih (k + 1) h
      exact ⟨j, by omega, by omega, h3⟩

lemma createLoop_eq_none {env : Nat → List Token} {req : CreateReq} {pfx adate : String}
    {today : Date} {now : Nat} :
    ∀ fuel k,
      (∀ j, k ≤ j → j < k + fuel → attemptInsert (env j) req pfx adate today now = none) →
      createLoop env req pfx adate today now fuel k = none := by
  intro fuel
  induction fuel with
  | zero => intro k _; simp [createLoop]
  | succ n ih =>
    intro k hall
    rw [createLoop, hall k (le_refl k) (by omega)]
    exact ih (k + 1) (fun j hj1 hj2 => hall j (by omega) (by omega))

lemma createToken_created_spec {deps : List Dept} {env : Nat → List Token}
    {req : CreateReq} {today : Date} {now : Nat} {ts1 : List Token} {t : Token}
    {p : Nat} {e : Option Nat}
    (h : createToken deps env req today now = CreateResult.created ts1 t p e) :
    ∃ d, lookupDept deps req.dept_id = some d ∧
      p = positionAhead ts1 t ∧ e = etaOf deps ts1 t ∧
      ∃ j, j < 8 ∧
        attemptInsert (env j) req (pfxOf d) (adateOf req today) today now = some (ts1, t) := by
  unfold createToken at h
  split at h
  · exact absurd h (by simp)
  · next d hd =>
    split at h
    · exact absurd h (by simp)
    · next tsr tr hl =>
      simp only [CreateResult.created.injEq] at h
      obtain ⟨h1, h2, h3, h4⟩ := h
      subst h1; subst h2
      obtain ⟨j, _, hj2, hj3⟩ := createLoop_spec 8 0 hl
      exact ⟨d, hd, h3.symm, h4.symm, j, by omega, hj3⟩

lemma createToken_allocFailed {deps : List Dept} {env : Nat → List Token}
    {req : CreateReq} {today : Date} {now : Nat} {d : Dept}
    (hd : lookupDept deps req.dept_id = some d)
    (hall : ∀ k, k < 8 →
      attemptInsert (env k) req (pfxOf d) (adateOf req today) today now = none) :
    createToken deps env req today now = CreateResult.allocFailed := by
  have hnone : createLoop env req (pfxOf d) (adateOf req today) today now 8 0 = none :=
    createLoop_eq_none 8 0 (fun j hj1 hj2 => hall j (by omega))
  simp only [createToken, hd, hnone]

/-! ### Concrete example data reused by witnesses and counterexamples -/

/-- Department used in concrete runs. -/
def exDept : Dept := { id := 1, abbr := "CARD", avg_service_time := some 10 }

/-- Server date used in concrete runs. -/
def exToday : Date := { year := 2024, month := 1, day := 1 }

/-- Creation request used in concrete runs. -/
def exReq : CreateReq :=
  { patient_name := "Asha", patient_phone := "99", dept_id := 1,
    appointment_date := none, priority_requested := false, reason := none }

/-- The row the first creation on an empty table produces. -/
def exTok : Token :=
  { id := 1, token_no := "CARD-001-20240101", patient_name := "Asha",
    patient_phone := "99", dept_id := 1, appointment_date := "2024-01-01",
    priority_requested := false, priority_approved := false, reason := "Visit",
    status := Status.Waiting, created_at := 100, called_at := none,
    completed_at := none, cancelled_at := none, cancelled_by := none }

/-- A pre-existing row occupying the token number the allocator would pick. -/
def blockTok1 : Token := { exTok with id := 1, token_no := "CARD-003-20240101" }

/-- A pre-existing row occupying the retry token number as well. -/
def blockTok2 : Token := { exTok with id := 2, token_no := "CARD-004-20240101" }

/-! ### Claim C1 -/

/-- Claim C1: a successfully created ticket appends a token_no absent from
the table snapshot it committed against, so the stored set of ticket_no
values (in particular per department and service date) stays
duplicate-free; and when none of the 8 bounded attempts obtains a unique
identifier, the endpoint reports an allocation failure rather than
returning any identifier. -/
theorem create_token_unique_or_alloc_failure
    (deps : List Dept) (env : Nat → List Token) (req : CreateReq)
    (today : Date) (now : Nat) :
    (∀ ts1 t p e, createToken deps env req today now = CreateResult.created ts1 t p e →
      ∃ k, k < 8 ∧ (∀ u ∈ env k, u.token_no ≠ t.token_no) ∧ ts1 = env k ++ [t] ∧
        (List.Pairwise (fun a b : Token => a.token_no ≠ b.token_no) (env k) →
          List.Pairwise (fun a b : Token => a.token_no ≠ b.token_no) ts1))
    ∧ (∀ d, lookupDept deps req.dept_id = some d →
        (∀ k, k < 8 →
          attemptInsert (env k) req (pfxOf d) (adateOf req today) today now = none) →
        createToken deps env req today now = CreateResult.allocFailed) := by
  constructor
  · intro ts1 t p e h
    obtain ⟨d, hd, hp, he, j, hj, hins⟩ := createToken_created_spec h
    obtain ⟨hfresh, happ, _⟩ := attemptInsert_spec hins
    refine ⟨j, hj, hfresh, happ, fun hnd => ?_⟩
    rw [happ, List.pairwise_append]
    refine ⟨hnd, by simp, fun a ha b hb => ?_⟩
    simp only [List.mem_singleton] at hb
    subst hb
    exact hfresh a ha
  · intro d hd hall
    exact createToken_allocFailed hd hall

/-- Witness: the first creation on an empty table commits CARD-001 fresh,
and with both candidate numbers occupied on every snapshot the endpoint
reports the allocation failure. -/
theorem create_token_unique_or_alloc_failure_witness :
    (∃ k, k < 8 ∧ (∀ u ∈ ([] : List Token), u.token_no ≠ exTok.token_no) ∧
        [exTok] = ([] : List Token) ++ [exTok] ∧
        (List.Pairwise (fun a b : Token => a.token_no ≠ b.token_no) ([] : List Token) →
          List.Pairwise (fun a b : Token => a.token_no ≠ b.token_no) [exTok]))
    ∧ createToken [exDept] (fun _ => [blockTok1, blockTok2]) exReq exToday 100
        = CreateResult.allocFailed := by
  constructor
  · exact (create_token_unique_or_alloc_failure [exDept] (fun _ => []) exReq exToday 100).1
      [exTok] exTok 0 (some 0) (by decide)
  · exact (create_token_unique_or_alloc_failure [exDept]
      (fun _ => [blockTok1, blockTok2]) exReq exToday 100).2 exDept (by decide) (by decide)

/-! ### Claim C2 -/

/-- Modelled from the spec (ranking-correctness sentence): ticket Y counts
ahead of ticket X when Y is a Waiting ticket of the same department and
date and Y.priority_approved > X.priority_approved, or the approvals are
equal and Y.created_at < X.created_at. -/
def SpecRanksAhead (x y : Token) : Prop :=
  y.dept_id = x.dept_id ∧ y.appointment_date = x.appointment_date ∧
    y.status = Status.Waiting ∧
    (x.priority_approved.toNat < y.priority_approved.toNat ∨
      (y.priority_approved = x.priority_approved ∧ y.created_at < x.created_at))

instance (x y : Token) : Decidable (SpecRanksAhead x y) := by
  unfold SpecRanksAhead; infer_instance

lemma aheadOf_iff (x y : Token) : aheadOf x y = true ↔ SpecRanksAhead x y := by
  unfold aheadOf SpecRanksAhead
  cases hx : x.priority_approved <;> cases hy : y.priority_approved <;>
    simp [hx, hy, and_assoc]

lemma positionAhead_eq_spec (ts : List Token) (x : Token) :
    positionAhead ts x = (ts.filter (fun y => decide (SpecRanksAhead x y))).length := by
  unfold positionAhead
  congr 1
  apply List.filter_congr
  intro y _
  rw [Bool.eq_iff_iff, aheadOf_iff, decide_eq_true_eq]

/-- Claim C2: the position_ahead value returned by get_token and by
create_token for a stored ticket X equals the count of stored tickets Y of
the same department and service date with status Waiting whose
priority_approved exceeds that of X, or equals it with an earlier
created_at. -/
theorem position_ahead_matches_spec_ranking
    (deps : List Dept) (ts : List Token) (tno : String) (t : Token) (p : Nat)
    (e : Option Nat) (env : Nat → List Token) (req : CreateReq) (today : Date)
    (now : Nat) (ts1 : List Token) :
    (getToken deps ts tno = some (t, p, e) →
      p = (ts.filter (fun y => decide (SpecRanksAhead t y))).length)
    ∧ (createToken deps env req today now = CreateResult.created ts1 t p e →
      p = (ts1.filter (fun y => decide (SpecRanksAhead t y))).length) := by
  constructor
  · intro h
    unfold getToken at h
    cases hf : ts.find? (fun u => u.token_no == tno) with
    | none => rw [hf] at h; simp at h
    | some u =>
      rw [hf] at h
      simp only [Option.map_some', Option.some.injEq, Prod.mk.injEq] at h
      obtain ⟨h1, h2, h3⟩ := h
      subst h1
      rw [← h2, positionAhead_eq_spec]
  · intro h
    obtain ⟨d, hd, hp, he, _⟩ := createToken_created_spec h
    rw [hp, positionAhead_eq_spec]

/-- A second plain ticket created later than exTok. -/
def exTokB : Token :=
  { exTok with id := 2, token_no := "CARD-002-20240101", created_at := 200 }

/-- A later ticket with approved priority. -/
def exTokC : Token :=
  { exTok with
    id := 3
    token_no := "CARD-003-20240101"
    created_at := 300
    priority_requested := true
    priority_approved := true }

/-- A three-ticket Waiting queue: two plain arrivals and a later approved
priority arrival. -/
def exStore : List Token := [exTok, exTokB, exTokC]

/-- Witness: in the three-ticket queue, CARD-002 has position 2 (the
earlier plain ticket and the approved-priority ticket rank ahead). -/
theorem position_ahead_matches_spec_ranking_witness :
    2 = (exStore.filter (fun y => decide (SpecRanksAhead exTokB y))).length :=
  (position_ahead_matches_spec_ranking [exDept] exStore "CARD-002-20240101" exTokB 2
    (some 20) (fun _ => []) exReq exToday 100 []).1 (by decide)

/-! ### Claim C8 -/

/-- Claim C8: the estimated_wait_minutes returned by get_token and by
create_token equals position_ahead times the ticket department
avg_service_time, with 5 as the multiplier when the column is NULL; both
values are recomputed from the stored state passed in. -/
theorem eta_is_position_times_avg
    (deps : List Dept) (ts : List Token) (tno : String) (t : Token) (p : Nat)
    (e : Option Nat) (env : Nat → List Token) (req : CreateReq) (today : Date)
    (now : Nat) (ts1 : List Token) (d : Dept) :
    (getToken deps ts tno = some (t, p, e) → lookupDept deps t.dept_id = some d →
      e = some (d.avg_service_time.getD 5 * p))
    ∧ (createToken deps env req today now = CreateResult.created ts1 t p e →
      lookupDept deps t.dept_id = some d →
      e = some (d.avg_service_time.getD 5 * p)) := by
  constructor
  · intro h hd
    unfold getToken at h
    cases hf : ts.find? (fun u => u.token_no == tno) with
    | none => rw [hf] at h; simp at h
    | some u =>
      rw [hf] at h
      simp only [Option.map_some', Option.some.injEq, Prod.mk.injEq] at h
      obtain ⟨h1, h2, h3⟩ := h
      subst h1
      rw [← h3, ← h2]
      unfold etaOf
      rw [hd, Option.map_some']
  · intro h hd
    obtain ⟨d', hd', hp, he, _⟩ := createToken_created_spec h
    rw [he, hp]
    unfold etaOf
    rw [hd, Option.map_some']

/-- Witness: for CARD-002 in the three-ticket queue the ETA is
avg_service_time 10 times position 2. -/
theorem eta_is_position_times_avg_witness :
    (some 20 : Option Nat) = some (exDept.avg_service_time.getD 5 * 2) :=
  (eta_is_position_times_avg [exDept] exStore "CARD-002-20240101" exTokB 2 (some 20)
    (fun _ => []) exReq exToday 100 [] exDept).1 (by decide) (by decide)

/-! ### Claim C4 -/

/-- Claim C4 (code bug): cancelling a Waiting ticket mutates the row to
Cancelled (with cancelled_at and cancelled_by set) yet the endpoint
reports the not-cancellable guard failure and writes no log, because the
code tests the value returned by exec_stmt, which is cur.lastrowid (always
0 after an UPDATE) rather than the affected-row count. -/
theorem cancel_waiting_mutates_but_reports_not_cancellable :
    exTok.status = Status.Waiting
    ∧ (cancelToken { tokens := [exTok], logs := [] } "CARD-001-20240101" 7).2
        = CancelResult.notCancellable
    ∧ ((cancelToken { tokens := [exTok], logs := [] } "CARD-001-20240101" 7).1.tokens.map
        (fun t => t.status)) = [Status.Cancelled]
    ∧ (cancelToken { tokens := [exTok], logs := [] } "CARD-001-20240101" 7).1.logs = [] := by
  decide

/-! ### Claim C6 -/

/-- A Completed (terminal) ticket. -/
def exTokDone : Token := { exTok with status := Status.Completed }

/-- Claim C6 counterexample: update_status sets In-Progress on a ticket
whose current status is Completed, not Called, mutating the row where the
claim demands that a non-matching source status leave it unchanged. -/
theorem update_status_unguarded_counterexample :
    exTokDone.status = Status.Completed
    ∧ ((updateStatus { tokens := [exTokDone], logs := [] } "CARD-001-20240101"
        "In-Progress" "staff" 9).1.tokens.map (fun t => t.status)) = [Status.InProgress] := by
  decide

/-- Claim C6 amended: only the Completed transition is guarded (current
status must be Called or In-Progress, otherwise the row is unchanged); the
In-Progress and No-show transitions are applied to the matching ticket
unconditionally, whatever its current status, terminal states included. -/
theorem update_status_guard_semantics
    (db : DB) (tno actor : String) (now : Nat) (i : Nat) (t : Token)
    (ht : db.tokens[i]? = some t) :
    ((updateStatus db tno "Completed" actor now).1.tokens[i]?
      = some (if t.token_no = tno ∧ (t.status = Status.Called ∨ t.status = Status.InProgress)
          then { t with status := Status.Completed, completed_at := some now } else t))
    ∧ ((updateStatus db tno "In-Progress" actor now).1.tokens[i]?
      = some (if t.token_no = tno then { t with status := Status.InProgress } else t))
    ∧ ((updateStatus db tno "No-show" actor now).1.tokens[i]?
      = some (if t.token_no = tno then { t with status := Status.NoShow } else t)) := by
  refine ⟨?_, ?_, ?_⟩
  · show (db.tokens.map (fun t =>
        if t.token_no = tno ∧ (t.status = Status.Called ∨ t.status = Status.InProgress)
        then { t with status := Status.Completed, completed_at := some now } else t))[i]? = _
    rw [List.getElem?_map, ht]
    rfl
  · show (db.tokens.map (fun t =>
        if t.token_no = tno then { t with status := Status.InProgress } else t))[i]? = _
    rw [List.getElem?_map, ht]
    rfl
  · show (db.tokens.map (fun t =>
        if t.token_no = tno then { t with status := Status.NoShow } else t))[i]? = _
    rw [List.getElem?_map, ht]
    rfl

/-- Witness: on the Completed ticket, a Completed update is a no-op while
In-Progress and No-show updates overwrite the terminal status. -/
theorem update_status_guard_semantics_witness :
    ((updateStatus { tokens := [exTokDone], logs := [] } "CARD-001-20240101" "Completed"
        "staff" 9).1.tokens[0]? = some exTokDone)
    ∧ ((updateStatus { tokens := [exTokDone], logs := [] } "CARD-001-20240101" "In-Progress"
        "staff" 9).1.tokens[0]? = some { exTokDone with status := Status.InProgress })
    ∧ ((updateStatus { tokens := [exTokDone], logs := [] } "CARD-001-20240101" "No-show"
        "staff" 9).1.tokens[0]? = some { exTokDone with status := Status.NoShow }) :=
  update_status_guard_semantics { tokens := [exTokDone], logs := [] }
    "CARD-001-20240101" "staff" 9 0 exTokDone rfl

/-! ### Claim C7 -/

/-- Claim C7 counterexample: approve_priority on a ticket whose priority
was never requested leaves every ticket unchanged (the guard rejects the
update) yet still inserts one audit-log entry. -/
theorem approve_priority_logs_despite_guard_reject :
    exTok.priority_requested = false
    ∧ (approvePriority { tokens := [exTok], logs := [] } "CARD-001-20240101" "staff").tokens
        = [exTok]
    ∧ (approvePriority { tokens := [exTok], logs := [] } "CARD-001-20240101" "staff").logs
        = [{ token_id := some 1, event := "approved_priority", actor := "staff" }] := by
  decide

/-- Claim C7 amended: cancel_token writes no log entry on any path (its
success branch is unreachable because it tests the lastrowid value);
approve_priority and update_status with a valid target status append
exactly one log entry per attempt whether or not their guards match, and
update_status with an invalid target appends none. -/
theorem audit_log_emission
    (db : DB) (tno actor st : String) (now : Nat) :
    ((cancelToken db tno now).1.logs = db.logs)
    ∧ ((approvePriority db tno actor).logs.length = db.logs.length + 1)
    ∧ (st ∈ (["In-Progress", "Completed", "No-show"] : List String) →
        (updateStatus db tno st actor now).1.logs.length = db.logs.length + 1)
    ∧ (st ∉ (["In-Progress", "Completed", "No-show"] : List String) →
        (updateStatus db tno st actor now).1.logs = db.logs) := by
  refine ⟨rfl, by simp [approvePriority], ?_, ?_⟩
  · intro hst
    unfold updateStatus
    rw [if_neg (not_not_intro hst)]
    simp
  · intro hst
    unfold updateStatus
    rw [if_pos hst]

/-- Witness: a valid Completed update on the example queue appends one log
entry; an invalid target status appends none. -/
theorem audit_log_emission_witness :
    ((updateStatus { tokens := [exTok], logs := [] } "CARD-001-20240101" "Completed"
        "staff" 9).1.logs.length = 0 + 1)
    ∧ ((updateStatus { tokens := [exTok], logs := [] } "CARD-001-20240101" "Archived"
        "staff" 9).1.logs = []) :=
  ⟨(audit_log_emission { tokens := [exTok], logs := [] } "CARD-001-20240101" "staff"
      "Completed" 9).2.2.1 (by decide),
   (audit_log_emission { tokens := [exTok], logs := [] } "CARD-001-20240101" "staff"
      "Archived" 9).2.2.2 (by decide)⟩

/-! ### Claim C3 -/

/-- A second department whose abbr is DERM and whose avg_service_time is
NULL. -/
def exDeptB : Dept := { id := 2, abbr := "DERM", avg_service_time := none }

/-- The first DERM ticket of the day; its global row id is 2 because a
CARD ticket took id 1. -/
def exTokDermFirst : Token :=
  { exTok with
    id := 2
    token_no := "DERM-001-20240101"
    dept_id := 2 }

/-- A creation request for the DERM department. -/
def exReqDerm : CreateReq :=
  { patient_name := "Zoya", patient_phone := "88", dept_id := 2,
    appointment_date := some "2024-01-01", priority_requested := false,
    reason := none }

/-- The row the DERM creation commits on the two-department table. -/
def exTokDermSecond : Token :=
  { exTok with
    id := 3
    token_no := "DERM-003-20240101"
    patient_name := "Zoya"
    patient_phone := "88"
    dept_id := 2
    created_at := 300 }

/-- Claim C3 counterexample: with tickets of two departments in the table,
the second DERM ticket of the pair gets suffix 003 (MAX(id) over the pair
is the global row id 2, plus 1), while the claimed rule 1 + count of
existing pair tickets (equally, max existing sequence 001 plus 1) gives
002. -/
theorem create_token_suffix_counterexample :
    createdTokenNo (createToken [exDept, exDeptB] (fun _ => [exTok, exTokDermFirst])
        exReqDerm exToday 300) = some "DERM-003-20240101"
    ∧ 1 + (([exTok, exTokDermFirst].filter (fun u =>
        u.dept_id == 2 && u.appointment_date == "2024-01-01")).length) = 2
    ∧ format_token "DERM" 2 exToday.ymd = "DERM-002-20240101"
    ∧ ("DERM-003-20240101" : String) ≠ "DERM-002-20240101" := by
  decide

/-- Claim C3 amended: the candidate suffix of each attempt is 1 plus the
maximum store-assigned row id among the pair's existing tickets, not 1
plus their count; the committed ticket carries the candidate suffix or the
candidate plus one (after a duplicate-key retry); when the pair has no
tickets the candidate is 1, so the first ticket of a pair gets suffix
001. -/
theorem create_token_suffix_from_max_id
    (deps : List Dept) (env : Nat → List Token) (req : CreateReq) (today : Date)
    (now : Nat) (d : Dept) (ts1 : List Token) (t : Token) (p : Nat) (e : Option Nat)
    (hd : lookupDept deps req.dept_id = some d)
    (h : createToken deps env req today now = CreateResult.created ts1 t p e) :
    ∃ k, k < 8 ∧
      (t.token_no = format_token (pfxOf d)
          (maxIdPair (env k) req.dept_id (adateOf req today) + 1) today.ymd
        ∨ t.token_no = format_token (pfxOf d)
          (maxIdPair (env k) req.dept_id (adateOf req today) + 2) today.ymd)
      ∧ ((env k).filter (fun u =>
            u.dept_id == req.dept_id && u.appointment_date == adateOf req today) = [] →
          maxIdPair (env k) req.dept_id (adateOf req today) + 1 = 1) := by
  obtain ⟨d', hd', hp, he, j, hj, hins⟩ := createToken_created_spec h
  rw [hd] at hd'
  injection hd' with hdd
  subst hdd
  obtain ⟨_, _, htok, _⟩ := attemptInsert_spec hins
  refine ⟨j, hj, htok, fun hnil => ?_⟩
  unfold maxIdPair
  rw [hnil]
  rfl

/-- Witness: on the two-department table the committed DERM ticket indeed
carries the MAX(id)-based suffix. -/
theorem create_token_suffix_from_max_id_witness :
    ∃ k, k < 8 ∧
      (exTokDermSecond.token_no = format_token (pfxOf exDeptB)
          (maxIdPair [exTok, exTokDermFirst] exReqDerm.dept_id
            (adateOf exReqDerm exToday) + 1) exToday.ymd
        ∨ exTokDermSecond.token_no = format_token (pfxOf exDeptB)
          (maxIdPair [exTok, exTokDermFirst] exReqDerm.dept_id
            (adateOf exReqDerm exToday) + 2) exToday.ymd)
      ∧ (([exTok, exTokDermFirst].filter (fun u =>
            u.dept_id == exReqDerm.dept_id
              && u.appointment_date == adateOf exReqDerm exToday)) = [] →
          maxIdPair [exTok, exTokDermFirst] exReqDerm.dept_id
            (adateOf exReqDerm exToday) + 1 = 1) :=
  create_token_suffix_from_max_id [exDept, exDeptB] (fun _ => [exTok, exTokDermFirst])
    exReqDerm exToday 300 exDeptB [exTok, exTokDermFirst, exTokDermSecond]
    exTokDermSecond 1 (some 5) (by decide) (by decide)

/-! ### Claim C10 -/

/-- Claim C10: the YYYYMMDD component of a generated token_no is the
server current date, while the suffix candidate is computed from the
tokens of the requested service date; the stored appointment_date is the
requested one, defaulting to today when the request omits it, so the
identifier date and the service date coincide exactly for same-day
tickets. -/
theorem token_no_uses_server_date
    (deps : List Dept) (env : Nat → List Token) (req : CreateReq) (today : Date)
    (now : Nat) (d : Dept) (ts1 : List Token) (t : Token) (p : Nat) (e : Option Nat)
    (hd : lookupDept deps req.dept_id = some d)
    (h : createToken deps env req today now = CreateResult.created ts1 t p e) :
    (∃ sfx, t.token_no = format_token (pfxOf d) sfx today.ymd
        ∧ ∃ k, k < 8 ∧ (sfx = maxIdPair (env k) req.dept_id (adateOf req today) + 1
            ∨ sfx = maxIdPair (env k) req.dept_id (adateOf req today) + 2))
    ∧ t.appointment_date = req.appointment_date.getD today.iso := by
  obtain ⟨d', hd', hp, he, j, hj, hins⟩ := createToken_created_spec h
  rw [hd] at hd'
  injection hd' with hdd
  subst hdd
  obtain ⟨_, _, htok, hadate, _⟩ := attemptInsert_spec hins
  refine ⟨?_, hadate⟩
  cases htok with
  | inl h1 => exact ⟨_, h1, j, hj, Or.inl rfl⟩
  | inr h2 => exact ⟨_, h2, j, hj, Or.inr rfl⟩

/-- Witness: the first ticket created with no requested date carries
today's YYYYMMDD in its number and today's ISO date as service date. -/
theorem token_no_uses_server_date_witness :
    (∃ sfx, exTok.token_no = format_token (pfxOf exDept) sfx exToday.ymd
        ∧ ∃ k, k < 8 ∧ (sfx = maxIdPair [] exReq.dept_id (adateOf exReq exToday) + 1
            ∨ sfx = maxIdPair [] exReq.dept_id (adateOf exReq exToday) + 2))
    ∧ exTok.appointment_date = exReq.appointment_date.getD exToday.iso :=
  token_no_uses_server_date [exDept] (fun _ => []) exReq exToday 100 exDept [exTok]
    exTok 0 (some 0) (by decide) (by decide)

/-! ### Claim C9 -/

/-- The data-model invariant: priority_approved implies priority_requested
for every stored row. -/
def PaInv (ts : List Token) : Prop :=
  ∀ t ∈ ts, t.priority_approved = true → t.priority_requested = true

instance (ts : List Token) : Decidable (PaInv ts) := by
  unfold PaInv; infer_instance

lemma paInv_map_of_preserve (ts : List Token) (f : Token → Token)
    (hf : ∀ t, (f t).priority_approved = t.priority_approved ∧
               (f t).priority_requested = t.priority_requested)
    (h : PaInv ts) : PaInv (ts.map f) := by
  intro u hu hpa
  obtain ⟨v, hv, rfl⟩ := List.mem_map.mp hu
  rw [(hf v).2]
  exact h v hv (by rw [← (hf v).1]; exact hpa)

lemma paInv_append_single (ts : List Token) (t : Token) (h : PaInv ts)
    (ht : t.priority_approved = true → t.priority_requested = true) :
    PaInv (ts ++ [t]) := by
  intro u hu hpa
  rcases List.mem_append.mp hu with h1 | h2
  · exact h u h1 hpa
  · simp only [List.mem_singleton] at h2
    subst h2
    exact ht hpa

lemma topWaitingIdx_spec (dept : Nat) (adate : String) :
    ∀ ts : List Token, ∀ i t, topWaitingIdx dept adate ts = some (i, t) →
      ts[i]? = some t ∧ isWaitingPair dept adate t = true := by
  intro ts
  induction ts with
  | nil => intro i t h; simp [topWaitingIdx] at h
  | cons a as ih =>
    intro i t h
    rw [topWaitingIdx] at h
    by_cases ha : isWaitingPair dept adate a = true
    · rw [if_pos ha] at h
      cases hr : topWaitingIdx dept adate as with
      | none =>
        rw [hr] at h
        have h2 : some (0, a) = some (i, t) := h
        injection h2 with h3
        obtain ⟨hi, htt⟩ := Prod.mk.inj h3
        subst hi; subst htt
        exact ⟨by simp, ha⟩
      | some pr =>
        rw [hr] at h
        obtain ⟨j, b⟩ := pr
        obtain ⟨hjb, hb⟩ := ih j b hr
        have h2 : (if ranksBefore b a then some (j + 1, b) else some (0, a)) = some (i, t) := h
        split at h2
        · injection h2 with h3
          obtain ⟨hi, htt⟩ := Prod.mk.inj h3
          subst hi; subst htt
          exact ⟨by simpa using hjb, hb⟩
        · injection h2 with h3
          obtain ⟨hi, htt⟩ := Prod.mk.inj h3
          subst hi; subst htt
          exact ⟨by simp, ha⟩
    · rw [if_neg ha] at h
      have h2 : (topWaitingIdx dept adate as).map (fun p => (p.1 + 1, p.2)) = some (i, t) := h
      cases hr : topWaitingIdx dept adate as with
      | none => rw [hr] at h2; simp at h2
      | some pr =>
        rw [hr] at h2
        obtain ⟨j, b⟩ := pr
        simp only [Option.map_some', Option.some.injEq, Prod.mk.injEq] at h2
        obtain ⟨hi, htt⟩ := h2
        subst hi; subst htt
        obtain ⟨hjb, hb⟩ := ih j b hr
        exact ⟨by simpa using hjb, hb⟩

lemma paInv_cancel (db : DB) (tno : String) (now : Nat) (h : PaInv db.tokens) :
    PaInv (cancelToken db tno now).1.tokens := by
  have heq : (cancelToken db tno now).1.tokens
      = db.tokens.map (fun t =>
          if t.token_no = tno ∧ (t.status = Status.Waiting ∨ t.status = Status.Called)
          then { t with status := Status.Cancelled, cancelled_at := some now,
                        cancelled_by := some "patient" }
          else t) := rfl
  rw [heq]
  apply paInv_map_of_preserve _ _ _ h
  intro t
  by_cases hc : t.token_no = tno ∧ (t.status = Status.Waiting ∨ t.status = Status.Called)
  · rw [if_pos hc]; exact ⟨rfl, rfl⟩
  · rw [if_neg hc]; exact ⟨rfl, rfl⟩

lemma paInv_approve (db : DB) (tno actor : String) (h : PaInv db.tokens) :
    PaInv (approvePriority db tno actor).tokens := by
  intro u hu hpa
  have hu' : u ∈ db.tokens.map (fun t =>
      if t.token_no = tno ∧ t.priority_requested = true
      then { t with priority_approved := true } else t) := hu
  obtain ⟨v, hv, rfl⟩ := List.mem_map.mp hu'
  by_cases hc : v.token_no = tno ∧ v.priority_requested = true
  · rw [if_pos hc]
    exact hc.2
  · rw [if_neg hc]
    rw [if_neg hc] at hpa
    exact h v hv hpa

lemma paInv_update (db : DB) (tno st actor : String) (now : Nat) (h : PaInv db.tokens) :
    PaInv (updateStatus db tno st actor now).1.tokens := by
  unfold updateStatus
  split
  · exact h
  · split
    · apply paInv_map_of_preserve _ _ _ h
      intro t
      by_cases hc : t.token_no = tno ∧ (t.status = Status.Called ∨ t.status = Status.InProgress)
      · rw [if_pos hc]; exact ⟨rfl, rfl⟩
      · rw [if_neg hc]; exact ⟨rfl, rfl⟩
    · apply paInv_map_of_preserve _ _ _ h
      intro t
      by_cases hc : t.token_no = tno
      · rw [if_pos hc]; exact ⟨rfl, rfl⟩
      · rw [if_neg hc]; exact ⟨rfl, rfl⟩

lemma paInv_call_next (db : DB) (dept : Nat) (adate : Option String) (actor : String)
    (today : Date) (now : Nat) (h : PaInv db.tokens) :
    PaInv (call_next db dept adate actor today now).1.tokens := by
  have heq : (call_next db dept adate actor today now).1
      = call_next_token db dept (adate.getD today.iso) actor now := rfl
  rw [heq]
  unfold call_next_token
  cases htop : topWaitingIdx dept (adate.getD today.iso) db.tokens with
  | none => exact h
  | some pr =>
    obtain ⟨i, t⟩ := pr
    obtain ⟨hit, _⟩ := topWaitingIdx_spec dept (adate.getD today.iso) db.tokens i t htop
    intro u hu hpa
    have hu' : u ∈ db.tokens.set i
        { t with status := Status.Called, called_at := some now } := hu
    rcases List.mem_or_eq_of_mem_set hu' with hmem | rfl
    · exact h u hmem hpa
    · exact h t (List.getElem?_mem hit) hpa

/-- Claim C9: tickets are created with priority_approved false,
approve_priority sets it true only for rows whose priority_requested is
true, every lifecycle operation preserves the invariant priority_approved
implies priority_requested, and no operation resets a true
priority_approved back to false. -/
theorem priority_approved_invariant
    (deps : List Dept) (env : Nat → List Token) (req : CreateReq) (today : Date)
    (db : DB) (tno st actor : String) (adate : Option String) (dept now : Nat)
    (hInv : PaInv db.tokens) :
    PaInv (cancelToken db tno now).1.tokens
    ∧ PaInv (approvePriority db tno actor).tokens
    ∧ PaInv (updateStatus db tno st actor now).1.tokens
    ∧ PaInv (call_next db dept adate actor today now).1.tokens
    ∧ (∀ ts1 t p e, createToken deps env req today now = CreateResult.created ts1 t p e →
        t.priority_approved = false ∧ ((∀ k, PaInv (env k)) → PaInv ts1))
    ∧ (∀ (i : Nat) (u : Token), db.tokens[i]? = some u → u.priority_approved = true →
        (∀ (u1 : Token), (cancelToken db tno now).1.tokens[i]? = some u1 →
          u1.priority_approved = true)
        ∧ (∀ (u2 : Token), (approvePriority db tno actor).tokens[i]? = some u2 →
          u2.priority_approved = true)
        ∧ (∀ (u3 : Token), (updateStatus db tno st actor now).1.tokens[i]? = some u3 →
          u3.priority_approved = true)
        ∧ (∀ (u4 : Token), (call_next db dept adate actor today now).1.tokens[i]? = some u4 →
          u4.priority_approved = true)) := by
  refine ⟨paInv_cancel db tno now hInv, paInv_approve db tno actor hInv,
    paInv_update db tno st actor now hInv,
    paInv_call_next db dept adate actor today now hInv, ?_, ?_⟩
  · intro ts1 t p e h
    obtain ⟨d, hd, hp, he, j, hj, hins⟩ := createToken_created_spec h
    obtain ⟨hfresh, happ, htok, hadate, hpa, hpr, _⟩ := attemptInsert_spec hins
    refine ⟨hpa, fun hall => ?_⟩
    rw [happ]
    exact paInv_append_single _ _ (hall j) (fun hx => absurd hx (by rw [hpa]; simp))
  · intro i u hiu hupa
    have hmap : ∀ (f : Token → Token), (db.tokens.map f)[i]? = some (f u) := by
      intro f
      rw [List.getElem?_map, hiu, Option.map_some']
    refine ⟨?_, ?_, ?_, ?_⟩
    · intro u1 h1
      have heq : (cancelToken db tno now).1.tokens
          = db.tokens.map (fun t =>
              if t.token_no = tno ∧ (t.status = Status.Waiting ∨ t.status = Status.Called)
              then { t with status := Status.Cancelled, cancelled_at := some now,
                            cancelled_by := some "patient" }
              else t) := rfl
      rw [heq, hmap] at h1
      injection h1 with h2
      subst h2
      by_cases hc : u.token_no = tno ∧ (u.status = Status.Waiting ∨ u.status = Status.Called)
      · rw [if_pos hc]; exact hupa
      · rw [if_neg hc]; exact hupa
    · intro u2 h2
      have heq : (approvePriority db tno actor).tokens
          = db.tokens.map (fun t =>
              if t.token_no = tno ∧ t.priority_requested = true
              then { t with priority_approved := true } else t) := rfl
      rw [heq, hmap] at h2
      injection h2 with h3
      subst h3
      by_cases hc : u.token_no = tno ∧ u.priority_requested = true
      · rw [if_pos hc]
      · rw [if_neg hc]; exact hupa
    · intro u3 h3
      unfold updateStatus at h3
      split at h3
      · rw [hiu] at h3
        injection h3 with h4
        subst h4
        exact hupa
      · split at h3
        · rw [hmap] at h3
          injection h3 with h4
          subst h4
          by_cases hc : u.token_no = tno ∧ (u.status = Status.Called ∨ u.status = Status.InProgress)
          · rw [if_pos hc]; exact hupa
          · rw [if_neg hc]; exact hupa
        · rw [hmap] at h3
          injection h3 with h4
          subst h4
          by_cases hc : u.token_no = tno
          · rw [if_pos hc]; exact hupa
          · rw [if_neg hc]; exact hupa
    · intro u4 h4
      have heq : (call_next db dept adate actor today now).1
          = call_next_token db dept (adate.getD today.iso) actor now := rfl
      rw [heq] at h4
      unfold call_next_token at h4
      cases htop : topWaitingIdx dept (adate.getD today.iso) db.tokens with
      | none =>
        rw [htop] at h4
        have h5 : db.tokens[i]? = some u4 := h4
        rw [hiu] at h5
        injection h5 with h6
        subst h6
        exact hupa
      | some pr =>
        rw [htop] at h4
        obtain ⟨j, t⟩ := pr
        obtain ⟨hjt, _⟩ := topWaitingIdx_spec dept (adate.getD today.iso) db.tokens j t htop
        have h5 : (db.tokens.set j
            { t with status := Status.Called, called_at := some now })[i]? = some u4 := h4
        by_cases hij : j = i
        · subst hij
          rw [List.getElem?_set_eq_of_lt _ (List.getElem?_eq_some_iff.mp hiu).1] at h5
          injection h5 with h6
          subst h6
          have : t = u := by
            have := hjt.symm.trans hiu
            injection this
          rw [this]
          exact hupa
        · rw [List.getElem?_set_ne hij] at h5
          rw [hiu] at h5
          injection h5 with h6
          subst h6
          exact hupa

/-- Witness: with the approved-priority queue stored, every operation of
the conjunction keeps the invariant at a concrete input. -/
theorem priority_approved_invariant_witness :
    PaInv (cancelToken { tokens := exStore, logs := [] } "CARD-003-20240101" 7).1.tokens
    ∧ (∀ (u1 : Token), (cancelToken { tokens := exStore, logs := [] } "CARD-003-20240101"
        7).1.tokens[2]? = some u1 → u1.priority_approved = true) :=
  ⟨(priority_approved_invariant [exDept] (fun _ => []) exReq exToday
      { tokens := exStore, logs := [] } "CARD-003-20240101" "Completed" "staff"
      (some "2024-01-01") 1 7 (by decide)).1,
   ((priority_approved_invariant [exDept] (fun _ => []) exReq exToday
      { tokens := exStore, logs := [] } "CARD-003-20240101" "Completed" "staff"
      (some "2024-01-01") 1 7 (by decide)).2.2.2.2.2 2 exTokC (by decide) (by decide)).1⟩

/-! ### Claim C5 -/

/-- A ticket called earlier in the day and still sitting in Called. -/
def exTokCalled : Token :=
  { exTok with status := Status.Called, called_at := some 5 }

/-- Claim C5 counterexample: with no Waiting ticket but a leftover Called
ticket, the endpoint changes nothing yet returns that stale token number
instead of none, because it answers with the most recently Called row of
the pair rather than with the output of the advancement itself. -/
theorem call_next_stale_counterexample :
    exTokCalled.status = Status.Called
    ∧ (call_next { tokens := [exTokCalled], logs := [] } 1 (some "2024-01-01") "staff"
        exToday 9).1 = { tokens := [exTokCalled], logs := [] }
    ∧ (call_next { tokens := [exTokCalled], logs := [] } 1 (some "2024-01-01") "staff"
        exToday 9).2 = some "CARD-001-20240101" := by
  decide

lemma mostRecentCalled_mem (dept : Nat) (adate : String) :
    ∀ ts : List Token, ∀ b, mostRecentCalled dept adate ts = some b →
      b ∈ ts ∧ isCalledPair dept adate b = true := by
  intro ts
  induction ts with
  | nil => intro b h; simp [mostRecentCalled] at h
  | cons a as ih =>
    intro b h
    rw [mostRecentCalled] at h
    by_cases ha : isCalledPair dept adate a = true
    · rw [if_pos ha] at h
      cases hr : mostRecentCalled dept adate as with
      | none =>
        rw [hr] at h
        have h2 : some a = some b := h
        injection h2 with h3
        subst h3
        exact ⟨List.mem_cons_self a as, ha⟩
      | some c =>
        rw [hr] at h
        have h2 : (if caVal a.called_at < caVal c.called_at then some c else some a)
            = some b := h
        split at h2
        · obtain ⟨hm, hc⟩ := ih c hr
          injection h2 with h3
          subst h3
          exact ⟨List.mem_cons_of_mem a hm, hc⟩
        · injection h2 with h3
          subst h3
          exact ⟨List.mem_cons_self a as, ha⟩
    · rw [if_neg ha] at h
      obtain ⟨hm, hc⟩ := ih b h
      exact ⟨List.mem_cons_of_mem a hm, hc⟩

lemma mostRecentCalled_eq_of_strict_max (dept : Nat) (adate : String) :
    ∀ ts : List Token, ∀ x : Token, x ∈ ts → isCalledPair dept adate x = true →
      (∀ u ∈ ts, isCalledPair dept adate u = true → u ≠ x →
        caVal u.called_at < caVal x.called_at) →
      mostRecentCalled dept adate ts = some x := by
  intro ts
  induction ts with
  | nil => intro x hx _ _; simp at hx
  | cons a as ih =>
    intro x hx hxc hmax
    rw [mostRecentCalled]
    rcases List.mem_cons.mp hx with rfl | hmem
    · rw [if_pos hxc]
      cases hr : mostRecentCalled dept adate as with
      | none => rfl
      | some c =>
        obtain ⟨hcm, hcc⟩ := mostRecentCalled_mem dept adate as c hr
        by_cases hcx : c = x
        · subst hcx
          show (if caVal c.called_at < caVal c.called_at then some c else some c) = some c
          rw [if_neg (lt_irrefl _)]
        · have hlt := hmax c (List.mem_cons_of_mem _ hcm) hcc hcx
          show (if caVal x.called_at < caVal c.called_at then some c else some x) = some x
          rw [if_neg (by omega)]
    · have hrec := ih x hmem hxc
        (fun u hu huc hux => hmax u (List.mem_cons_of_mem _ hu) huc hux)
      by_cases ha : isCalledPair dept adate a = true
      · rw [if_pos ha, hrec]
        by_cases hax : a = x
        · subst hax
          show (if caVal a.called_at < caVal a.called_at then some a else some a) = some a
          rw [if_neg (lt_irrefl _)]
        · have hlt := hmax a (List.mem_cons_self _ _) ha hax
          show (if caVal a.called_at < caVal x.called_at then some x else some a) = some x
          rw [if_pos hlt]
      · rw [if_neg ha]
        exact hrec

/-- Claim C5 amended: when no Waiting ticket exists for the pair the
endpoint leaves the state unchanged and answers with the most recently
Called ticket still in Called status (none only when there is no such
row); when a top-ranked Waiting ticket exists and every stored called_at
is older than the fresh timestamp, the answer is the number of the ticket
this invocation just transitioned to Called. -/
theorem call_next_amended
    (db : DB) (dept : Nat) (adate : Option String) (actor : String) (today : Date)
    (now : Nat) :
    (topWaitingIdx dept (adate.getD today.iso) db.tokens = none →
      call_next db dept adate actor today now
        = (db, (mostRecentCalled dept (adate.getD today.iso) db.tokens).map
            (fun u => u.token_no)))
    ∧ (∀ (i : Nat) (t : Token),
        topWaitingIdx dept (adate.getD today.iso) db.tokens = some (i, t) →
        (∀ u ∈ db.tokens, ∀ c, u.called_at = some c → c < now) →
        (call_next db dept adate actor today now).1.tokens
            = db.tokens.set i { t with status := Status.Called, called_at := some now }
          ∧ (call_next db dept adate actor today now).2 = some t.token_no) := by
  constructor
  · intro htop
    show (call_next_token db dept (adate.getD today.iso) actor now, _) = _
    unfold call_next_token
    rw [htop]
  · intro i t htop hfresh
    obtain ⟨hit, hwp⟩ := topWaitingIdx_spec dept (adate.getD today.iso) db.tokens i t htop
    have hlen : i < db.tokens.length := (List.getElem?_eq_some_iff.mp hit).1
    have hmemt : t ∈ db.tokens := List.getElem?_mem hit
    have heq1 : (call_next db dept adate actor today now).1
        = call_next_token db dept (adate.getD today.iso) actor now := rfl
    have heqtok : (call_next_token db dept (adate.getD today.iso) actor now).tokens
        = db.tokens.set i { t with status := Status.Called, called_at := some now } := by
      unfold call_next_token
      rw [htop]
    have hpair : isCalledPair dept (adate.getD today.iso)
        { t with status := Status.Called, called_at := some now } = true := by
      unfold isWaitingPair at hwp
      unfold isCalledPair
      simp only [Bool.and_eq_true, beq_iff_eq] at hwp ⊢
      exact ⟨⟨hwp.1.1, hwp.1.2⟩, trivial⟩
    have hsel : mostRecentCalled dept (adate.getD today.iso)
        (db.tokens.set i { t with status := Status.Called, called_at := some now })
        = some { t with status := Status.Called, called_at := some now } := by
      apply mostRecentCalled_eq_of_strict_max
      · exact List.getElem?_mem (by
          rw [List.getElem?_set_eq_of_lt _ hlen])
      · exact hpair
      · intro u hu huc hune
        rcases List.mem_or_eq_of_mem_set hu with hmem | heq
        · cases hc : u.called_at with
          | none => simp [caVal]
          | some c =>
            have := hfresh u hmem c hc
            simp only [caVal, hc]
            omega
        · exact absurd heq hune
    constructor
    · rw [heq1, heqtok]
    · show ((mostRecentCalled dept (adate.getD today.iso)
          (call_next_token db dept (adate.getD today.iso) actor now).tokens).map
            (fun u => u.token_no)) = some t.token_no
      rw [heqtok, hsel]
      rfl

/-- Witness: on a queue holding one stale Called ticket and one Waiting
ticket, the advancement transitions the Waiting ticket and answers with
its number. -/
theorem call_next_amended_witness :
    (call_next { tokens := [exTokCalled, exTokB], logs := [] } 1 (some "2024-01-01")
        "staff" exToday 9).1.tokens
      = [exTokCalled, exTokB].set 1
          { exTokB with status := Status.Called, called_at := some 9 }
    ∧ (call_next { tokens := [exTokCalled, exTokB], logs := [] } 1 (some "2024-01-01")
        "staff" exToday 9).2 = some exTokB.token_no :=
  (call_next_amended { tokens := [exTokCalled, exTokB], logs := [] } 1
    (some "2024-01-01") "staff" exToday 9).2 1 exTokB (by decide)
    (by
      intro u hu c hc
      rcases List.mem_cons.mp hu with rfl | hu2
      · have : some 5 = some c := hc
        injection this with h5
        omega
      · rcases List.mem_cons.mp hu2 with rfl | hu3
        · exact absurd hc (by simp [exTokB, exTok])
        · simp at hu3)

end OPD
